import Mathlib

/-!
Shallow embedding of the Telegram video-circle bot handlers
(`handlers.py`): payload encoding, callback parsing, the pending-operation
registry, the clip conversion pipeline, and temporary-file cleanup,
together with theorems settling the specification claims.
-/

/-- Constant `MAX_DURATION_SECONDS = 60` from handlers.py, as a rational
since clip durations are fractional. -/
def MAX_DURATION_SECONDS : ℚ := 60

/-- Constant `MAX_FILE_SIZE_BYTES = 12 * 1024 * 1024` from handlers.py. -/
def MAX_FILE_SIZE_BYTES : Nat := 12 * 1024 * 1024

/-- Constant `CIRCLE_SIZE = 360` from handlers.py. -/
def CIRCLE_SIZE : ℚ := 360

/-- Embedding of `get_temp_filenames`: instantiates the two filename
templates `input_media_{}.tmp` and `output_video_{}.mp4` with the user id. -/
def get_temp_filenames (user_id : Int) : String × String :=
  ("input_media_" ++ toString user_id ++ ".tmp",
   "output_video_" ++ toString user_id ++ ".mp4")

/-- Single-character replacement, the embedding of Python
`str.replace(old, new)` when both arguments are single characters. -/
def replaceChar (old new : Char) (s : String) : String :=
  (s.toList.map (fun c => if c = old then new else c)).asString

/-- Embedding of the payload encoding done in `process_media`
(line 131): `file_unique_id.replace(':', '_')`. -/
def payload_encode (s : String) : String := replaceChar ':' '_' s

/-- Embedding of the payload decoding done in `button_handler`
(line 190): `file_unique_id.replace('_', ':')`. -/
def payload_decode (s : String) : String := replaceChar '_' ':' s

/-- Splitting a character list at every occurrence of `sep`, with Python
`str.split(sep)` semantics: `"".split(sep) = [""]` and empty pieces kept. -/
def splitChList (sep : Char) : List Char → List (List Char)
  | [] => [[]]
  | c :: cs =>
      let r := splitChList sep cs
      if c = sep then [] :: r
      else (c :: r.headD []) :: r.tail

/-- Embedding of `query.data.split(':')` in `button_handler` (line 186). -/
def split_colon (s : String) : List String :=
  (splitChList ':' s.toList).map List.asString

/-! ## The pending-operation registry and the button callback handler -/

/-- Registry entry stored by `process_media` under `media_{file_unique_id}`
in `context.user_data` (lines 150-155). -/
structure MediaData where
  input_filename : String
  media_type : String
  chat_id : Int
  status_message_id : Int
deriving DecidableEq, Repr

/-- `context.user_data`, modelled as an association list (a Python dict:
at most one entry per key, maintained by insert-with-overwrite). -/
abbrev UserData := List (String × MediaData)

/-- Embedding of the registry insertion in `process_media` (line 150):
`context.user_data[key] = {...}`, which overwrites any previous entry. -/
def register_media (ud : UserData) (file_unique_id : String) (md : MediaData) :
    UserData :=
  ("media_" ++ file_unique_id, md) ::
    ud.filter (fun p => p.1 != "media_" ++ file_unique_id)

/-- Embedding of `context.user_data.pop(user_key, None)` in
`button_handler` (line 204): returns the entry if present and removes it. -/
def user_data_pop (ud : UserData) (key : String) :
    Option MediaData × UserData :=
  (ud.lookup key, ud.filter (fun p => p.1 != key))

/-- Embedding of the unique-id extraction in `button_handler`
(lines 186-190): the last colon-separated field when there are at least
two fields, with the `_` to `:` substitution undone; Python treats the
empty string as falsy, so an empty last field yields no id. -/
def payload_uid (data : String) : Option String :=
  let parts := split_colon data
  if parts.length > 1 then
    let s := parts.getLastD ""
    if s = "" then none else some (payload_decode s)
  else none

/-- The distinct terminal outcomes of `button_handler`. `parseError` is
the `except` branch of lines 192-195 (unreachable: `split` and `replace`
do not raise); `malformedProcess` is the `len(data_parts) < 4` notice of
lines 229-233. -/
inductive BHResult where
  | parseError
  | noFileId
  | staleMissing
  | cancelled
  | malformedProcess
  | conversionStarted (mute trim : Bool) (input_filename : String)
      (file_unique_id : String)
  | unknownAction
deriving DecidableEq, Repr

/-- What one `button_handler` invocation produced: the terminal outcome,
the registry afterwards, whether the registry was consulted (the
`user_data.pop` of line 204 was executed), and the filenames passed to
`cleanup_files`. -/
structure BHOutcome where
  result : BHResult
  userData : UserData
  lookupAttempted : Bool
  cleanupRequests : List String
deriving DecidableEq, Repr

/-- Embedding of `button_handler` (handlers.py lines 178-258): parse the
payload, extract the unique id, pop the pending operation, then dispatch
on the action field. -/
def button_handler (user_id : Int) (data : String) (ud : UserData) :
    BHOutcome :=
  let parts := split_colon data
  let action := parts.headD ""
  match payload_uid data with
  | none => ⟨.noFileId, ud, false, []⟩
  | some uid =>
      let key := "media_" ++ uid
      let popped := user_data_pop ud key
      match popped.1 with
      | none =>
          ⟨.staleMissing, popped.2, true, [(get_temp_filenames user_id).1]⟩
      | some md =>
          if action = "cancel" then
            ⟨.cancelled, popped.2, true, [md.input_filename]⟩
          else if action = "process" then
            if parts.length < 4 then
              ⟨.malformedProcess, popped.2, true, [md.input_filename]⟩
            else
              ⟨.conversionStarted (parts.getD 1 "" = "mute_audio")
                 (parts.getD 2 "" = "trim") md.input_filename uid,
               popped.2, true, []⟩
          else
            ⟨.unknownAction, popped.2, true, [md.input_filename]⟩

/-! ## Temporary-file cleanup and storage -/

/-- Embedding of `cleanup_files` (handlers.py lines 28-36) acting on a
storage state listed as the files currently present. Each argument that
is non-null and non-empty (Python truthiness) and names a present file is
removed; `failSet` lists the paths whose `os.remove` raises `OSError`,
which the function catches and logs, continuing with the rest. The
function is total: no exception reaches the caller. -/
def cleanup_files (failSet : List String) (files : List String) :
    List (Option String) → List String
  | [] => files
  | none :: rest => cleanup_files failSet files rest
  | some f :: rest =>
      if f = "" then cleanup_files failSet files rest
      else if f ∈ files then
        if f ∈ failSet then cleanup_files failSet files rest
        else cleanup_files failSet (files.erase f) rest
      else cleanup_files failSet files rest

/-! ## The clip model and the conversion pipeline -/

/-- The observable state of a MoviePy clip as used by the pipeline:
dimensions, duration (both fractional), and whether an audio track is
attached (`clip.audio is not None`). -/
structure Clip where
  w : ℚ
  h : ℚ
  duration : ℚ
  hasAudio : Bool
deriving DecidableEq, Repr

/-- Embedding of `clip.subclip(0, t)`. -/
def Clip.subclipTo (c : Clip) (t : ℚ) : Clip := { c with duration := t }

/-- Embedding of `clip.without_audio()`. -/
def Clip.without_audio (c : Clip) : Clip := { c with hasAudio := false }

/-- Embedding of MoviePy `clip.resize(width=W)`: the height scales by the
same factor `W / w`. -/
def Clip.resize_w (c : Clip) (W : ℚ) : Clip :=
  { c with w := W, h := c.h * (W / c.w) }

/-- Embedding of MoviePy `clip.resize(height=H)`: the width scales by the
same factor `H / h`. -/
def Clip.resize_h (c : Clip) (H : ℚ) : Clip :=
  { c with w := c.w * (H / c.h), h := H }

/-- Embedding of MoviePy `clip.crop(x_center=xc, y_center=yc, width=cw,
height=ch)`: the crop window runs from `xc - cw/2` to `xc + cw/2` (and
likewise vertically) and the result has the window's dimensions. -/
def Clip.crop_center (c : Clip) (xc yc cw ch : ℚ) : Clip :=
  let x1 := xc - cw / 2
  let x2 := xc + cw / 2
  let y1 := yc - ch / 2
  let y2 := yc + ch / 2
  { c with w := x2 - x1, h := y2 - y1 }

/-- Embedding of step 3 of `_perform_conversion` (lines 308-318): resize
along the shorter side to `CIRCLE_SIZE`, the square case going through
`resize(width=...)`. -/
def resize_step (c : Clip) : Clip :=
  if c.w > c.h then c.resize_h CIRCLE_SIZE
  else if c.h > c.w then c.resize_w CIRCLE_SIZE
  else c.resize_w CIRCLE_SIZE

/-- Embedding of the center crop of `_perform_conversion` (lines 321-324):
window of `CIRCLE_SIZE x CIRCLE_SIZE` centered at the clip center. -/
def crop_step (c : Clip) : Clip :=
  c.crop_center (c.w / 2) (c.h / 2) CIRCLE_SIZE CIRCLE_SIZE

/-- Embedding of the clip transformations of `_perform_conversion`
(lines 290-324): optional trim to `min(duration, 60)`, audio stripping
when `mute`, the silent forcing of `mute` when the clip has no audio
track (lines 300-306), then resize and center crop. Returns the output
clip and the effective mute flag used for the encode step. -/
def convert_pipeline (clip : Clip) (mute trim : Bool) : Clip × Bool :=
  let current :=
    if trim then clip.subclipTo (min clip.duration MAX_DURATION_SECONDS)
    else clip
  let step2 : Clip × Bool :=
    if mute then (current.without_audio, mute)
    else if current.hasAudio = false then (current, true)
    else (current, mute)
  let resized := resize_step step2.1
  (crop_step resized, step2.2)

/-- Embedding of the `audio_codec` argument of `write_videofile`
(line 337): `"aac" if not mute and output_clip.audio is not None else
None`. -/
def audio_codec_choice (output : Clip) (mute : Bool) : Option String :=
  if ¬mute ∧ output.hasAudio then some "aac" else none

/-- Embedding of the `audio_bitrate` argument of `write_videofile`
(line 339): `"96k" if not mute and output_clip.audio is not None else
None`. -/
def audio_bitrate_choice (output : Clip) (mute : Bool) : Option String :=
  if ¬mute ∧ output.hasAudio then some "96k" else none

/-! ## File-level behaviour of the conversion handler -/

/-- Outcome of the `send_video_note` call (lines 361-385): success, the
caught `TimedOut`, or another caught send exception. -/
inductive SendOutcome where
  | ok
  | timedOut
  | failed
deriving DecidableEq, Repr

/-- The terminal user-visible notice of one `_perform_conversion` run. -/
inductive ConvNotice where
  | delivered
  | convError
  | sizeExceeded (megabytes : Nat)
  | sendTimedOut
  | sendError
deriving DecidableEq, Repr

/-- Environment resolving the external calls of `_perform_conversion`:
whether loading, transforming and writing the clip succeed
(`writeOk = false` is any exception caught at line 387), the size
`os.path.getsize` reports for the written output, and how the send call
ends. -/
structure ConvEnv where
  writeOk : Bool
  outputSize : Nat
  send : SendOutcome
deriving DecidableEq, Repr

/-- Recording that `write_videofile` created (or overwrote) the output
path: presence-wise, the path is added to storage if absent. -/
def write_output (f : String) (files : List String) : List String :=
  if f ∈ files then files else f :: files

/-- Embedding of the storage behaviour of `_perform_conversion`
(lines 261-401): every path, including the early `return` on the
size check of lines 352-355, falls through to the `finally` block of
lines 392-401, which calls `cleanup_files(input_filename,
output_filename)`. Returns the storage state after the handler and the
terminal notice. -/
def perform_conversion_files (env : ConvEnv) (user_id : Int)
    (input_filename : String) (failSet : List String)
    (files : List String) : List String × ConvNotice :=
  let output_filename := (get_temp_filenames user_id).2
  let finish := fun (fs : List String) (n : ConvNotice) =>
    (cleanup_files failSet fs [some input_filename, some output_filename], n)
  if env.writeOk = false then
    finish files .convError
  else
    let files1 := write_output output_filename files
    if env.outputSize > MAX_FILE_SIZE_BYTES then
      finish files1 (.sizeExceeded (env.outputSize / 1024 / 1024))
    else
      match env.send with
      | .ok => finish files1 .delivered
      | .timedOut => finish files1 .sendTimedOut
      | .failed => finish files1 .sendError

/-! ## The intake handler's option keyboard -/

/-- An inline keyboard button: visible text and callback payload. -/
structure IKButton where
  text : String
  callback_data : String
deriving DecidableEq, Repr

/-- Embedding of `needs_trim = actual_duration > MAX_DURATION_SECONDS`
(line 121). -/
def needs_trim (d : ℚ) : Bool := d > MAX_DURATION_SECONDS

/-- Embedding of the keyboard built by `process_media` (lines 129-147):
one row of two process buttons chosen by `needs_trim`, then a cancel
row, every payload carrying the encoded unique id. -/
def build_options_keyboard (d : ℚ) (file_unique_id : String) :
    List (List IKButton) :=
  let base_data := payload_encode file_unique_id
  let firstRow :=
    if ¬needs_trim d then
      [⟨"✅ Оставить звук", "process:keep_audio:no_trim:" ++ base_data⟩,
       ⟨"🔇 Убрать звук", "process:mute_audio:no_trim:" ++ base_data⟩]
    else
      [⟨"✂️+✅ Обрезать и оставить звук", "process:keep_audio:trim:" ++ base_data⟩,
       ⟨"✂️+🔇 Обрезать и убрать звук", "process:mute_audio:trim:" ++ base_data⟩]
  [firstRow, [⟨"❌ Отмена", "cancel:na:na:" ++ base_data⟩]]

/-- The fixed no-trim layout named by the specification: keep-audio and
mute-audio buttons plus the cancel button. -/
def layout_no_trim (file_unique_id : String) : List (List IKButton) :=
  let base_data := payload_encode file_unique_id
  [[⟨"✅ Оставить звук", "process:keep_audio:no_trim:" ++ base_data⟩,
    ⟨"🔇 Убрать звук", "process:mute_audio:no_trim:" ++ base_data⟩],
   [⟨"❌ Отмена", "cancel:na:na:" ++ base_data⟩]]

/-- The fixed trim layout named by the specification: trim-and-keep-audio
and trim-and-mute-audio buttons plus the cancel button. -/
def layout_trim (file_unique_id : String) : List (List IKButton) :=
  let base_data := payload_encode file_unique_id
  [[⟨"✂️+✅ Обрезать и оставить звук", "process:keep_audio:trim:" ++ base_data⟩,
    ⟨"✂️+🔇 Обрезать и убрать звук", "process:mute_audio:trim:" ++ base_data⟩],
   [⟨"❌ Отмена", "cancel:na:na:" ++ base_data⟩]]

/-! ## MarkdownV2 escaping -/

/-- The escape set `_*[]()~`>#+-=|{}.!` of `escape_markdown_v2`
(line 25). -/
def markdown_escape_chars : List Char := "_*[]()~`>#+-=|\x7b\x7d.!".toList

/-- Embedding of `escape_markdown_v2` (lines 23-26): `re.sub` with the
single-character class built from the escape set scans the input left to
right and replaces each matching character by a backslash followed by
that character. -/
def subEscapeList : List Char → List Char
  | [] => []
  | c :: cs =>
      if c ∈ markdown_escape_chars then '\\' :: c :: subEscapeList cs
      else c :: subEscapeList cs

/-- Embedding of `escape_markdown_v2` on strings. -/
def escape_markdown_v2 (s : String) : String :=
  (subEscapeList s.toList).asString

/-- The transformation as the claim words it: every occurrence of each
character of the escape set is prefixed by a single backslash, every
other character is left unchanged. -/
def escape_markdown_v2_claim (s : String) : String :=
  (s.toList.flatMap fun c =>
    if c ∈ markdown_escape_chars then ['\\', c] else [c]).asString

/-- A file survives a `cleanup_files` call iff it is not listed among the
arguments as a non-null, non-empty path whose deletion succeeds. -/
def survives (failSet : List String) (names : List (Option String))
    (f : String) : Bool :=
  ¬ (some f ∈ names ∧ f ∉ failSet ∧ f ≠ "")

/-- At most one registry entry per key. -/
def at_most_one_per_key (ud : UserData) : Prop :=
  ∀ k : String, ud.countP (fun p => p.1 == k) ≤ 1

/-! ## Claim C1: payload encode/decode round trip -/

/-- Replacing every colon by an underscore and then every underscore by a
colon restores a character list that contained no underscore. -/
theorem map_colon_underscore_roundtrip (l : List Char) (hl : '_' ∉ l) :
    (l.map (fun c => if c = ':' then '_' else c)).map
      (fun c => if c = '_' then ':' else c) = l := by
  induction l with
  | nil => rfl
  | cons a t ih =>
      simp only [List.mem_cons, not_or] at hl
      have ha : a ≠ '_' := fun hh => hl.1 hh.symm
      simp only [List.map_cons, ih hl.2]
      by_cases hc : a = ':'
      · simp [hc]
      · simp [hc, ha]

/-- C1 counterexample: the claim fails as stated, because decoding maps
every underscore to a colon, including underscores that were present in
the original identifier. For the identifier `"a_b"` the round trip
returns `"a:b"`. -/
theorem C1_counterexample :
    ¬ payload_decode (payload_encode "a_b") = "a_b" := by decide

/-- C1 (amended): for every file unique identifier containing no `_`
character (and so any number of `:` characters), encoding by replacing
every `:` with `_` and then decoding by replacing every `_` with `:`
returns the original identifier. -/
theorem C1_payload_roundtrip (s : String) (h : '_' ∉ s.toList) :
    payload_decode (payload_encode s) = s := by
  unfold payload_decode payload_encode replaceChar
  rw [List.toList_asString, map_colon_underscore_roundtrip s.toList h,
    String.asString_toList]

/-- Witness for C1: the round trip at the concrete identifier
`"AgAD:42:xyz"`, which contains colons but no underscore. -/
theorem C1_payload_roundtrip_witness :
    '_' ∉ "AgAD:42:xyz".toList ∧
      payload_decode (payload_encode "AgAD:42:xyz") = "AgAD:42:xyz" :=
  ⟨by decide, C1_payload_roundtrip "AgAD:42:xyz" (by decide)⟩

/-! ## Claim C9: MarkdownV2 escaping -/

/-- C9: `escape_markdown_v2` returns its input with every occurrence of
each character in `_*[]()~`>#+-=|{}.!` prefixed by a single backslash
and all other characters unchanged. -/
theorem C9_escape_markdown_v2 (s : String) :
    escape_markdown_v2 s = escape_markdown_v2_claim s := by
  unfold escape_markdown_v2 escape_markdown_v2_claim
  congr 1
  induction s.toList with
  | nil => rfl
  | cons a t ih =>
      by_cases h : a ∈ markdown_escape_chars <;>
        simp [subEscapeList, h, ih]

/-! ## Claim C5: trim flag and option keyboard -/

/-- The two fixed layouts differ (already in their first button's
text). -/
theorem layouts_distinct (uid : String) :
    layout_no_trim uid ≠ layout_trim uid := by
  intro hEq
  have h2 := congrArg (fun k => ((k.headD []).headD ⟨"", ""⟩).text) hEq
  simp only [layout_no_trim, layout_trim, List.headD_cons] at h2
  exact absurd h2 (by decide)

/-- C5: for every probed duration d > 0, the intake handler sets
needs_trim iff d > 60 seconds, and the button set offered is exactly one
of the two fixed two-button layouts plus a cancel button, the trim
layout exactly when d > 60. -/
theorem C5_needs_trim_and_keyboard (d : ℚ) (uid : String) (hd : 0 < d) :
    (needs_trim d = true ↔ d > 60) ∧
    (build_options_keyboard d uid = layout_no_trim uid ∨
      build_options_keyboard d uid = layout_trim uid) ∧
    layout_no_trim uid ≠ layout_trim uid ∧
    (build_options_keyboard d uid = layout_trim uid ↔ d > 60) := by
  have hne := layouts_distinct uid
  have hkb2 : build_options_keyboard d uid =
      if d > 60 then layout_trim uid else layout_no_trim uid := by
    by_cases h : d > 60 <;>
      simp [build_options_keyboard, layout_trim, layout_no_trim,
        needs_trim, MAX_DURATION_SECONDS, h]
  refine ⟨?_, ?_, hne, ?_⟩
  · simp [needs_trim, MAX_DURATION_SECONDS]
  · by_cases h : d > 60
    · right; simp [hkb2, h]
    · left; simp [hkb2, h]
  · constructor
    · intro hEq
      by_contra h
      rw [hkb2, if_neg h] at hEq
      exact hne hEq
    · intro h
      rw [hkb2, if_pos h]

/-- Witness for C5 at the concrete duration 30 and identifier "u". -/
theorem C5_needs_trim_and_keyboard_witness :
    (0 : ℚ) < 30 ∧
      (build_options_keyboard 30 "u" = layout_no_trim "u" ∨
        build_options_keyboard 30 "u" = layout_trim "u") :=
  ⟨by norm_num, (C5_needs_trim_and_keyboard 30 "u" (by norm_num)).2.1⟩

/-! ## Claims C6 and C7: conversion pipeline properties -/

@[simp]
theorem subclipTo_hasAudio (c : Clip) (t : ℚ) :
    (c.subclipTo t).hasAudio = c.hasAudio := rfl

@[simp]
theorem without_audio_hasAudio (c : Clip) :
    c.without_audio.hasAudio = false := rfl

@[simp]
theorem resize_step_hasAudio (c : Clip) :
    (resize_step c).hasAudio = c.hasAudio := by
  unfold resize_step Clip.resize_w Clip.resize_h
  split_ifs <;> rfl

@[simp]
theorem crop_step_hasAudio (c : Clip) :
    (crop_step c).hasAudio = c.hasAudio := rfl

/-- C6: for a clip without an audio track the pipeline forces the encode
mute flag to true whatever the user chose, so neither an audio codec nor
an audio bitrate is applied; and when the user chose mute the audio
track is stripped before encoding. -/
theorem C6_no_audio_forces_mute (clip : Clip) (mute trim : Bool) :
    (clip.hasAudio = false →
      (convert_pipeline clip mute trim).2 = true ∧
      audio_codec_choice (convert_pipeline clip mute trim).1
        (convert_pipeline clip mute trim).2 = none ∧
      audio_bitrate_choice (convert_pipeline clip mute trim).1
        (convert_pipeline clip mute trim).2 = none) ∧
    (convert_pipeline clip true trim).1.hasAudio = false := by
  constructor
  · intro hna
    cases mute <;> cases trim <;>
      simp [convert_pipeline, audio_codec_choice, audio_bitrate_choice, hna]
  · cases trim <;> simp [convert_pipeline]

/-- Witness for C6 at a concrete audio-less 640x480 clip with the
keep-audio choice. -/
theorem C6_no_audio_forces_mute_witness :
    (convert_pipeline ⟨640, 480, 10, false⟩ false false).2 = true ∧
      audio_codec_choice (convert_pipeline ⟨640, 480, 10, false⟩ false false).1
        (convert_pipeline ⟨640, 480, 10, false⟩ false false).2 = none :=
  ⟨((C6_no_audio_forces_mute ⟨640, 480, 10, false⟩ false false).1 rfl).1,
   ((C6_no_audio_forces_mute ⟨640, 480, 10, false⟩ false false).1 rfl).2.1⟩

/-- The center crop window always has the target dimensions. -/
theorem crop_step_dims (c : Clip) :
    (crop_step c).w = 360 ∧ (crop_step c).h = 360 := by
  constructor <;>
    · simp only [crop_step, Clip.crop_center, CIRCLE_SIZE]
      ring

/-- Scaling the longer side by the shorter side's scale factor keeps it
at least 360. -/
theorem le_mul_div_of_le (a b : ℚ) (hb : 0 < b) (hba : b ≤ a) :
    (360 : ℚ) ≤ a * (360 / b) := by
  rw [← mul_div_assoc, le_div_iff₀ hb]
  nlinarith

/-- C7: for input dimensions w, h > 0 the intermediate resize makes the
shorter side exactly 360 and the center crop yields exactly 360 x 360. -/
theorem C7_resize_and_crop (c : Clip) (hw : 0 < c.w) (hh : 0 < c.h) :
    min (resize_step c).w (resize_step c).h = 360 ∧
    (crop_step (resize_step c)).w = 360 ∧
    (crop_step (resize_step c)).h = 360 := by
  refine ⟨?_, (crop_step_dims _).1, (crop_step_dims _).2⟩
  unfold resize_step Clip.resize_h Clip.resize_w
  split_ifs with h1 h2
  · simp only [CIRCLE_SIZE]
    exact min_eq_right (le_mul_div_of_le c.w c.h hh (le_of_lt h1))
  · simp only [CIRCLE_SIZE]
    exact min_eq_left (le_mul_div_of_le c.h c.w hw (le_of_lt h2))
  · have hEq : c.w = c.h := le_antisymm (not_lt.mp h1) (not_lt.mp h2)
    simp only [CIRCLE_SIZE]
    rw [hEq, mul_comm, div_mul_cancel₀ _ (ne_of_gt hh), min_self]

/-- Witness for C7 at a concrete 640x480 clip. -/
theorem C7_resize_and_crop_witness :
    (0 : ℚ) < 640 ∧ (0 : ℚ) < 480 ∧
      min (resize_step ⟨640, 480, 10, true⟩).w
        (resize_step ⟨640, 480, 10, true⟩).h = 360 :=
  ⟨by norm_num, by norm_num,
   (C7_resize_and_crop ⟨640, 480, 10, true⟩ (by norm_num) (by norm_num)).1⟩

/-! ## Claim C8: cleanup_files behaviour -/

/-- On duplicate-free storage, `cleanup_files` keeps exactly the files
that are not successfully deleted, independently of the order and of
failures among the other arguments. -/
theorem cleanup_files_eq_filter (failSet : List String)
    (names : List (Option String)) :
    ∀ files : List String, files.Nodup →
      cleanup_files failSet files names =
        files.filter (survives failSet names) := by
  induction names with
  | nil =>
      intro files _
      rw [cleanup_files]
      symm
      apply List.filter_eq_self.mpr
      intro a _
      simp [survives]
  | cons n rest ih =>
      intro files hnd
      cases n with
      | none =>
          rw [cleanup_files, ih files hnd]
          refine List.filter_congr ?_
          intro a _
          simp [survives]
      | some f =>
          by_cases hf0 : f = ""
          · subst hf0
            rw [cleanup_files, if_pos rfl, ih files hnd]
            refine List.filter_congr ?_
            intro a _
            by_cases hae : a = "" <;> simp [survives, hae]
          · by_cases hmem : f ∈ files
            · by_cases hfail : f ∈ failSet
              · rw [cleanup_files, if_neg hf0, if_pos hmem, if_pos hfail,
                  ih files hnd]
                refine List.filter_congr ?_
                intro a _
                by_cases hae : a = f
                · subst hae; simp [survives, hfail]
                · have : ¬ some a = some f := by simp [hae]
                  simp [survives, this]
              · rw [cleanup_files, if_neg hf0, if_pos hmem, if_neg hfail,
                  ih (files.erase f) (hnd.erase f),
                  hnd.erase_eq_filter f, List.filter_filter]
                refine List.filter_congr ?_
                intro a _
                by_cases hae : a = f
                · subst hae
                  simp [survives, hfail, hf0]
                · have h1 : ¬ some a = some f := by simp [hae]
                  simp [survives, h1, hae]
            · rw [cleanup_files, if_neg hf0, if_neg hmem, ih files hnd]
              refine List.filter_congr ?_
              intro a ha
              have hae : ¬ a = f := fun hEq => hmem (hEq ▸ ha)
              have h1 : ¬ some a = some f := by simp [hae]
              simp [survives, h1]

/-- C8: on duplicate-free storage, `cleanup_files` (a total function:
`os.remove` failures are caught, so no exception reaches the caller)
deletes exactly the present paths it was given as non-null, non-empty
arguments whose removal succeeds; a removal failure on one path does not
prevent the removal of any other, and no file not named is touched. -/
theorem C8_cleanup_files_safe (failSet files : List String)
    (names : List (Option String)) (hnd : files.Nodup) :
    cleanup_files failSet files names =
      files.filter (survives failSet names) ∧
    (∀ f, some f ∈ names → f ∉ failSet → f ≠ "" →
      f ∉ cleanup_files failSet files names) ∧
    (∀ f, f ∈ cleanup_files failSet files names → f ∈ files) := by
  have hmain := cleanup_files_eq_filter failSet names files hnd
  refine ⟨hmain, ?_, ?_⟩
  · intro f hin hfail hne hmemres
    rw [hmain] at hmemres
    have h2 := List.of_mem_filter hmemres
    simp only [survives, decide_eq_true_eq] at h2
    exact h2 ⟨hin, hfail, hne⟩
  · intro f hmemres
    rw [hmain] at hmemres
    exact List.mem_of_mem_filter hmemres

/-- Witness for C8 on a concrete storage state: deleting one present
path, one failing path and one absent path; the failure on the second
argument does not prevent deletion of the third. -/
theorem C8_cleanup_files_safe_witness :
    ["a", "b", "c"].Nodup ∧
      cleanup_files ["b"] ["a", "b", "c"]
        [some "a", some "b", none, some "c", some ""] = ["b"] := by
  refine ⟨by decide, ?_⟩
  rw [(C8_cleanup_files_safe ["b"] ["a", "b", "c"]
    [some "a", some "b", none, some "c", some ""] (by decide)).1]
  decide

/-! ## Claim C4: pop-once semantics of the registry -/

/-- After filtering a key out, lookup of that key misses. -/
theorem lookup_filter_ne (ud : UserData) (k : String) :
    (ud.filter (fun p => p.1 != k)).lookup k = none := by
  induction ud with
  | nil => rfl
  | cons p t ih =>
      by_cases h : p.1 = k
      · simp [List.filter_cons, h, ih]
      · have hne : ¬ k = p.1 := fun hh => h hh.symm
        have hb : (k == p.1) = false := by simp [hne]
        simp [List.filter_cons, List.lookup, h, hb, ih]

/-- Whenever the payload carries a unique id, every branch of
`button_handler` leaves the registry with that id's key removed. -/
theorem button_handler_userData (user_id : Int) (data : String)
    (ud : UserData) (u : String) (h : payload_uid data = some u) :
    (button_handler user_id data ud).userData =
      ud.filter (fun p => p.1 != "media_" ++ u) := by
  unfold button_handler
  rw [h]
  simp only [user_data_pop]
  cases ud.lookup ("media_" ++ u) <;> simp <;> split_ifs <;> rfl

/-- A callback whose unique id has no registry entry reports the
stale/missing notice. -/
theorem button_handler_stale (user_id : Int) (data : String)
    (ud : UserData) (u : String) (hu : payload_uid data = some u)
    (hl : ud.lookup ("media_" ++ u) = none) :
    (button_handler user_id data ud).result = .staleMissing := by
  unfold button_handler
  rw [hu]
  simp [user_data_pop, hl]

/-- The filtered remainder used by insert-with-overwrite and by pop has
no entry left under the filtered key. -/
theorem countP_filter_ne_key (ud : UserData) (k : String) :
    (ud.filter (fun p => p.1 != k)).countP (fun p => p.1 == k) = 0 := by
  apply List.countP_eq_zero.mpr
  intro p hp
  have h2 : p.1 ≠ k := by simpa using (List.mem_filter.mp hp).2
  simp [h2]

/-- Registration by `process_media` preserves the one-entry-per-key
invariant. -/
theorem register_media_at_most_one (ud : UserData) (uid : String)
    (md : MediaData) (h : at_most_one_per_key ud) :
    at_most_one_per_key (register_media ud uid md) := by
  intro k
  unfold register_media
  by_cases hk : ("media_" ++ uid) = k
  · subst hk
    rw [List.countP_cons_of_pos _ _ (by simp), countP_filter_ne_key]
  · rw [List.countP_cons_of_neg _ _ (by simpa using hk)]
    exact le_trans (List.Sublist.countP_le _ (List.filter_sublist ud)) (h k)

/-- C4: once a callback for unique id u has consumed the pending
operation, its key is gone from the registry; any further callback
carrying u reports the stale/missing notice and never starts a
conversion; and both registration and callback handling preserve the
at-most-one-entry-per-identifier invariant. -/
theorem C4_pop_once (user_id1 user_id2 : Int) (data1 data2 : String)
    (ud : UserData) (u : String)
    (h1 : payload_uid data1 = some u) (h2 : payload_uid data2 = some u) :
    (button_handler user_id1 data1 ud).userData.lookup ("media_" ++ u) =
      none ∧
    (button_handler user_id2 data2
      (button_handler user_id1 data1 ud).userData).result = .staleMissing ∧
    (∀ mute trim fn v,
      (button_handler user_id2 data2
          (button_handler user_id1 data1 ud).userData).result ≠
        .conversionStarted mute trim fn v) ∧
    (∀ md, at_most_one_per_key ud →
      at_most_one_per_key (register_media ud u md)) ∧
    (at_most_one_per_key ud →
      at_most_one_per_key (button_handler user_id1 data1 ud).userData) := by
  have hgone : (button_handler user_id1 data1 ud).userData.lookup
      ("media_" ++ u) = none := by
    rw [button_handler_userData user_id1 data1 ud u h1]
    exact lookup_filter_ne ud ("media_" ++ u)
  have hstale := button_handler_stale user_id2 data2
    (button_handler user_id1 data1 ud).userData u h2 hgone
  refine ⟨hgone, hstale, ?_, ?_, ?_⟩
  · intro mute trim fn v hEq
    rw [hstale] at hEq
    exact absurd hEq (by simp)
  · intro md h
    exact register_media_at_most_one ud u md h
  · intro h
    rw [button_handler_userData user_id1 data1 ud u h1]
    intro k
    exact le_trans (List.Sublist.countP_le _ (List.filter_sublist ud)) (h k)

/-- Witness for C4: a registry holding one concrete pending operation
for id "abc", consumed by a first callback; the second callback with the
same id reports stale/missing. -/
theorem C4_pop_once_witness :
    payload_uid "process:keep_audio:no_trim:abc" = some "abc" ∧
      (button_handler 7 "cancel:na:na:abc"
        (button_handler 7 "process:keep_audio:no_trim:abc"
          [("media_abc", ⟨"input_media_7.tmp", "video", 1, 2⟩)]).userData).result
        = .staleMissing :=
  ⟨by decide,
   (C4_pop_once 7 7 "process:keep_audio:no_trim:abc" "cancel:na:na:abc"
      [("media_abc", ⟨"input_media_7.tmp", "video", 1, 2⟩)] "abc"
      (by decide) (by decide)).2.1⟩

/-! ## Claim C3: three-field payloads -/

/-- C3 counterexample: for the three-field payload
`process:keep_audio:no_trim` on an empty registry the handler does
attempt the registry lookup (treating `no_trim`, decoded to `no:trim`,
as the unique id) and reports the stale/missing notice, not the
parse-error notice. -/
theorem C3_counterexample :
    (button_handler 7 "process:keep_audio:no_trim" []).lookupAttempted
        = true ∧
      ¬ (button_handler 7 "process:keep_audio:no_trim" []).result
        = .malformedProcess := by
  constructor
  · decide
  · decide

/-- C3 (amended): for a button-press whose process payload has only
three colon-separated fields with a non-empty last field, the handler
takes the last field (underscores decoded to colons) as the unique id
and does attempt the registry lookup; when no pending operation exists
under that id it edits the message with the stale/missing notice, and
when one exists it consumes it and only then edits the message with the
parse-error notice. -/
theorem C3_three_field_payload (user_id : Int) (data a b c : String)
    (ud : UserData) (hsplit : split_colon data = [a, b, c])
    (ha : a = "process") (hc : c ≠ "") :
    (button_handler user_id data ud).lookupAttempted = true ∧
    (ud.lookup ("media_" ++ payload_decode c) = none →
      (button_handler user_id data ud).result = .staleMissing) ∧
    (∀ md, ud.lookup ("media_" ++ payload_decode c) = some md →
      (button_handler user_id data ud).result = .malformedProcess) := by
  have hu : payload_uid data = some (payload_decode c) := by
    unfold payload_uid
    rw [hsplit]
    simp [List.getLastD_cons, hc]
  refine ⟨?_, ?_, ?_⟩
  · unfold button_handler
    rw [hu]
    simp only [user_data_pop]
    cases hl : ud.lookup ("media_" ++ payload_decode c) <;>
      simp [hl] <;> split_ifs <;> rfl
  · intro hl
    unfold button_handler
    rw [hu]
    simp [user_data_pop, hl]
  · intro md hl
    unfold button_handler
    rw [hu, hsplit, ha]
    simp [user_data_pop, hl]

/-- Witness for C3 (amended): the concrete three-field payload
`process:keep_audio:no_trim` on the empty registry yields the
stale/missing notice. -/
theorem C3_three_field_payload_witness :
    split_colon "process:keep_audio:no_trim" =
        ["process", "keep_audio", "no_trim"] ∧
      (button_handler 7 "process:keep_audio:no_trim" []).result
        = .staleMissing :=
  ⟨by decide,
   (C3_three_field_payload 7 "process:keep_audio:no_trim"
      "process" "keep_audio" "no_trim" [] (by decide) rfl (by decide)).2.1
     (by decide)⟩

/-! ## Claim C10: the audio and trim fields are not validated -/

/-- C10: for a process payload with at least four colon-separated
fields, the handler never validates the audio and trim fields: it
derives mute as equality of the second field with "mute_audio" and trim
as equality of the third field with "trim", so any unrecognized value is
silently treated as keep-audio and no-trim respectively, and when a
pending operation exists for the id the conversion still proceeds with
those flags. -/
theorem C10_unvalidated_choice_fields (user_id : Int)
    (data X Y uid : String) (mid : List String) (ud : UserData)
    (md : MediaData)
    (hsplit : split_colon data = "process" :: X :: Y :: (mid ++ [uid]))
    (huid : uid ≠ "")
    (hfound : ud.lookup ("media_" ++ payload_decode uid) = some md) :
    (button_handler user_id data ud).result =
      .conversionStarted (X = "mute_audio") (Y = "trim")
        md.input_filename (payload_decode uid) := by
  have hu : payload_uid data = some (payload_decode uid) := by
    unfold payload_uid
    rw [hsplit]
    simp only [List.getLastD_cons, List.getLastD_concat]
    simp [huid]
  unfold button_handler
  rw [hu, hsplit]
  simp [user_data_pop, hfound]
  split_ifs with hcond
  · exact absurd hcond (by omega)
  · rfl

/-- Witness for C10: the concrete payload `process:foo:bar:abc` with
unrecognized audio and trim fields still starts the conversion, with
mute and trim both false. -/
theorem C10_unvalidated_choice_fields_witness :
    split_colon "process:foo:bar:abc" = ["process", "foo", "bar", "abc"] ∧
      (button_handler 7 "process:foo:bar:abc"
          [("media_abc", ⟨"input_media_7.tmp", "video", 1, 2⟩)]).result =
        .conversionStarted false false "input_media_7.tmp" "abc" :=
  ⟨by decide,
   by
    have h := C10_unvalidated_choice_fields 7 "process:foo:bar:abc"
      "foo" "bar" "abc" [] [("media_abc", ⟨"input_media_7.tmp", "video", 1, 2⟩)]
      ⟨"input_media_7.tmp", "video", 1, 2⟩ (by decide) (by decide) (by decide)
    simpa using h⟩

/-! ## Claim C2: temporary files after the conversion handler -/

/-- The per-user output filename is never the empty string. -/
theorem output_filename_ne_empty (user_id : Int) :
    (get_temp_filenames user_id).2 ≠ "" := by
  intro h
  have h2 := congrArg String.data h
  simp only [get_temp_filenames, String.data_append] at h2
  simp at h2

/-- `write_output` preserves freedom from duplicates. -/
theorem write_output_nodup (f : String) (files : List String)
    (hnd : files.Nodup) : (write_output f files).Nodup := by
  unfold write_output
  split_ifs with h
  · exact hnd
  · exact List.Nodup.cons h hnd

/-- On every path of `_perform_conversion` - success, conversion error,
send failure or timeout, and also the size-limit-exceeded path - the
`finally` block removes both the input and the output temporary file
(when the operating-system deletions succeed, here `failSet = []`). -/
theorem perform_conversion_cleans_both (env : ConvEnv) (user_id : Int)
    (input : String) (files : List String) (hnd : files.Nodup)
    (hin : input ≠ "") :
    input ∉ (perform_conversion_files env user_id input [] files).1 ∧
    (get_temp_filenames user_id).2 ∉
      (perform_conversion_files env user_id input [] files).1 := by
  have habsent : ∀ fs : List String, fs.Nodup → ∀ g : String, g ≠ "" →
      (g = input ∨ g = (get_temp_filenames user_id).2) →
      g ∉ cleanup_files [] fs
        [some input, some (get_temp_filenames user_id).2] := by
    intro fs hfs g hg hor hmem
    rw [cleanup_files_eq_filter [] _ fs hfs] at hmem
    have h2 := List.of_mem_filter hmem
    simp only [survives, decide_eq_true_eq] at h2
    refine h2 ⟨?_, by simp, hg⟩
    rcases hor with h | h <;> simp [h]
  unfold perform_conversion_files
  split_ifs with h1 h2
  · exact ⟨habsent files hnd input hin (Or.inl rfl),
      habsent files hnd _ (output_filename_ne_empty user_id) (Or.inr rfl)⟩
  · exact ⟨habsent _ (write_output_nodup _ files hnd) input hin (Or.inl rfl),
      habsent _ (write_output_nodup _ files hnd) _
        (output_filename_ne_empty user_id) (Or.inr rfl)⟩
  · cases env.send <;>
      exact ⟨habsent _ (write_output_nodup _ files hnd) input hin (Or.inl rfl),
        habsent _ (write_output_nodup _ files hnd) _
          (output_filename_ne_empty user_id) (Or.inr rfl)⟩

/-- C2 evaluation at the failing input: a successful encode whose output
measures 13 MiB (over the 12 MiB ceiling) ends with the size-exceeded
notice, yet the output file is deleted from storage rather than
retained, because the `finally` block of `_perform_conversion` runs even
on the early `return` of the size check. -/
theorem C2_size_exceeded_deletes_output :
    (perform_conversion_files ⟨true, 13 * 1024 * 1024, .ok⟩ 7
        "input_media_7.tmp" [] ["input_media_7.tmp"]).2 =
      .sizeExceeded 13 ∧
    "output_video_7.mp4" ∉
      (perform_conversion_files ⟨true, 13 * 1024 * 1024, .ok⟩ 7
        "input_media_7.tmp" [] ["input_media_7.tmp"]).1 ∧
    "input_media_7.tmp" ∉
      (perform_conversion_files ⟨true, 13 * 1024 * 1024, .ok⟩ 7
        "input_media_7.tmp" [] ["input_media_7.tmp"]).1 := by
  refine ⟨by decide, by decide, by decide⟩
